import Mathlib

/-
  Verification of the rachael-assistant orchestrator core against its
  natural-language specification.

  Shallow embedding of:
    - src/api-core/app/models.py        (Pydantic data model)
    - src/api-core/app/clients/browser_client.py  (action dispatcher)
    - src/api-core/app/store.py         (PostgreSQL store: task rows, approvals,
                                         in-memory approval events)
    - src/api-core/app/executor.py      (step-by-step plan interpreter)
    - src/api-core/app/routers/chat.py, tasks.py  (ingress endpoints)
    - src/worker/scheduler.py           (health-check cron minute set)

  External effects (LLM calls, browser HTTP calls, approval arrival, clocks,
  fresh UUIDs) are modelled as an explicit environment; the PostgreSQL tables
  and the in-memory asyncio.Event registry are modelled as explicit state.
-/

namespace Rachael

/-- JSON values, the shallow embedding of Python dynamic `Any` data that
crosses the JSON boundary (step args, step outputs, plan_json blobs). -/
inductive JsonVal where
  | null
  | bool (b : Bool)
  | num (n : Int)
  | str (s : String)
  | arr (elems : List JsonVal)
  | obj (fields : List (String × JsonVal))

/-- models.py `PlanStep`: one invocation of a named tool. -/
structure PlanStep where
  tool : String
  args : List (String × JsonVal) := []
  needs_ok : Bool := false
  ok_prompt : Option String := none

/-- models.py `Plan`. -/
structure Plan where
  goal : String
  steps : List PlanStep

/-- models.py `TaskStatus` enumeration. -/
inductive TaskStatus where
  | pending
  | running
  | paused_for_approval
  | completed
  | failed
deriving DecidableEq

/-- models.py `StepResult`: appended by the Executor once per attempted step.
`status` is one of "ok" | "error" | "skipped". -/
structure StepResult where
  step_index : Nat
  tool : String
  args : List (String × JsonVal)
  status : String
  output : JsonVal := JsonVal.null
  error : Option String := none

/-- models.py `TaskRecord`. Timestamps are abstract clock values. -/
structure TaskRecord where
  id : String
  created_at : Nat := 0
  updated_at : Nat := 0
  status : TaskStatus := TaskStatus.pending
  goal : String
  plan : Option Plan := none
  results : List StepResult := []
  current_step : Nat := 0
  error : Option String := none
  reply : Option String := none
  pending_approval_id : Option String := none

/-- models.py `TaskResponse`: the projection returned by GET /v1/tasks/{id}. -/
structure TaskResponse where
  id : String
  status : TaskStatus
  goal : String
  current_step : Nat
  results : List StepResult
  pending_approval_id : Option String := none
  error : Option String := none
  reply : Option String := none

/- ──────────────────────────────────────────────────────────────────────────
   browser_client.py — BrowserClient.dispatch
   ────────────────────────────────────────────────────────────────────────── -/

/-- The HTTP request a BrowserClient method would issue against the Browser
Agent (path plus JSON payload); `dispatch` either produces one of these or
fails before any request is made. -/
inductive BrowserCall where
  | post (path : String) (payload : List (String × JsonVal))
  | get (path : String)

/-- Failures of `BrowserClient.dispatch` that happen before any HTTP request:
the unknown-action ValueError, or a Python KeyError while a handler extracts
a required argument from `args`. -/
inductive BrowserError where
  | unknownAction (action : String)
  | keyError (key : String)

/-- Python `args[key]`: dictionary lookup raising KeyError when absent. -/
def getArg (args : List (String × JsonVal)) (key : String) : Except BrowserError JsonVal :=
  match args.find? (fun kv => kv.fst == key) with
  | some kv => Except.ok kv.snd
  | none => Except.error (BrowserError.keyError key)

/-- browser_client.py lines 71-80: the `dispatch_map` dict literal. Each
handler builds the HTTP request its BrowserClient method (lines 39-61) would
issue. Note the map has EIGHT entries, `snapshot` included. -/
def dispatchHandler (action : String) :
    Option (List (String × JsonVal) → Except BrowserError BrowserCall) :=
  if action = "open" then
    some (fun a => (getArg a ("url")).map (fun url => BrowserCall.post ("/v1/browser/open") [("url", url)]))
  else if action = "navigate" then
    some (fun a => (getArg a ("url")).map (fun url => BrowserCall.post ("/v1/browser/navigate") [("url", url)]))
  else if action = "snapshot" then
    some (fun _ => Except.ok (BrowserCall.get ("/v1/browser/snapshot")))
  else if action = "click" then
    some (fun a => (getArg a ("element_id")).map (fun e => BrowserCall.post ("/v1/browser/click") [("element_id", e)]))
  else if action = "type" then
    some (fun a =>
      (getArg a ("element_id")).bind (fun e =>
        (getArg a ("text")).map (fun t => BrowserCall.post ("/v1/browser/type") [("element_id", e), ("text", t)])))
  else if action = "extract" then
    some (fun a => (getArg a ("selector")).map (fun s => BrowserCall.post ("/v1/browser/extract") [("selector", s)]))
  else if action = "screenshot" then
    some (fun _ => Except.ok (BrowserCall.get ("/v1/browser/screenshot")))
  else if action = "close" then
    some (fun _ => Except.ok (BrowserCall.post ("/v1/browser/close") []))
  else
    none

/-- browser_client.py lines 82-86: `dispatch` looks the action up in the map
and raises the unknown-action ValueError when absent — before any HTTP
request — else runs the handler (which shapes the request). -/
def browserDispatch (action : String) (args : List (String × JsonVal)) :
    Except BrowserError BrowserCall :=
  match dispatchHandler action with
  | none => Except.error (BrowserError.unknownAction action)
  | some handler => handler args

/-- The seven tool names as enumerated by the spec (§2 Browser Gateway, §4.1). -/
def sevenToolNames : List String :=
  ["open", "navigate", "click", "type", "extract", "screenshot", "close"]

/-- The eight action names actually present in `dispatch_map`. -/
def dispatchActionNames : List String :=
  ["open", "navigate", "snapshot", "click", "type", "extract", "screenshot", "close"]

/- ──────────────────────────────────────────────────────────────────────────
   store.py — PostgreSQLStore
   ────────────────────────────────────────────────────────────────────────── -/

/-- store.py `_STATUS_TO_DB` (lines 27-33): model status → DB vocabulary.
`save_task` reads it with `.get(task.status, "pending")`; the dict is total
on the enum, so the default never applies. -/
def statusToDB : TaskStatus → String
  | TaskStatus.pending => "pending"
  | TaskStatus.running => "running"
  | TaskStatus.paused_for_approval => "waiting_approval"
  | TaskStatus.completed => "done"
  | TaskStatus.failed => "failed"

/-- store.py `_STATUS_FROM_DB` (line 35), read with
`.get(row status, TaskStatus.pending)` in `_row_to_task` (line 123). -/
def statusFromDB (s : String) : TaskStatus :=
  if s = "pending" then TaskStatus.pending
  else if s = "running" then TaskStatus.running
  else if s = "waiting_approval" then TaskStatus.paused_for_approval
  else if s = "done" then TaskStatus.completed
  else if s = "failed" then TaskStatus.failed
  else TaskStatus.pending

/-- The `plan_json` JSONB blob written by `save_task` (store.py lines 70-75):
keys plan, results, current_step, pending_approval_id. Pydantic
`model_dump`/`model_validate` through `json.dumps`/`json.loads` is the
identity on these models, so the blob stores the structures directly. -/
structure PlanJsonBlob where
  plan : Option Plan
  results : List StepResult
  current_step : Nat
  pending_approval_id : Option String

/-- A row of the `tasks` table. -/
structure TaskRow where
  id : String
  goal : String
  plan_json : PlanJsonBlob
  status : String
  error : Option String
  created_at : Nat
  updated_at : Nat

/-- store.py `save_task` (lines 68-96): the row upserted for a TaskRecord.
Note that `task.reply` is NOT serialized anywhere in the row. The
`updated_at = now()` column is the `now` argument. -/
def save_task (now : Nat) (task : TaskRecord) : TaskRow :=
  { id := task.id
    goal := task.goal
    plan_json :=
      { plan := task.plan
        results := task.results
        current_step := task.current_step
        pending_approval_id := task.pending_approval_id }
    status := statusToDB task.status
    error := task.error
    created_at := task.created_at
    updated_at := now }

/-- store.py `_row_to_task` (lines 117-136). The TaskRecord is rebuilt from
the row; `reply` is not among the constructor arguments, so it takes the
Pydantic default `None`. -/
def row_to_task (row : TaskRow) : TaskRecord :=
  { id := row.id
    goal := row.goal
    plan := row.plan_json.plan
    status := statusFromDB row.status
    error := row.error
    results := row.plan_json.results
    current_step := row.plan_json.current_step
    pending_approval_id := row.plan_json.pending_approval_id
    created_at := row.created_at
    updated_at := row.updated_at
    reply := none }

/-- A row of the `approvals` table (store.py save_approval / get_approval):
`status ∈ {pending, approved}`. The row id is the key in the store map. -/
structure ApprovalRow where
  task_id : String
  step_index : Nat
  ok_prompt : String
  status : String
  created_at : Nat
  resolved_at : Option Nat

/-- The PostgreSQLStore state: the `tasks` and `approvals` tables keyed by id,
plus the in-memory `_approval_events` registry (store.py line 51); the Bool
is whether the asyncio.Event has been set. -/
structure StoreState where
  tasks : String → Option TaskRow
  approvals : String → Option ApprovalRow
  events : String → Option Bool

/-- The store before any write. -/
def emptyStore : StoreState :=
  { tasks := fun _ => none, approvals := fun _ => none, events := fun _ => none }

/-- store.py `save_task` at the store level: upsert by id. -/
def store_save_task (st : StoreState) (now : Nat) (task : TaskRecord) : StoreState :=
  { st with tasks := fun i => if i = task.id then some (save_task now task) else st.tasks i }

/-- store.py `save_approval` (lines 140-156): INSERT ... ON CONFLICT DO
NOTHING, then create the in-memory event if absent. -/
def save_approval (st : StoreState) (approval_id task_id : String) (step_index : Nat)
    (ok_prompt : String) (now : Nat) : StoreState :=
  let st1 :=
    match st.approvals approval_id with
    | some _ => st
    | none =>
        { st with approvals := fun i =>
            if i = approval_id then
              some { task_id := task_id, step_index := step_index, ok_prompt := ok_prompt,
                     status := "pending", created_at := now, resolved_at := none }
            else st.approvals i }
  match st1.events approval_id with
  | some _ => st1
  | none => { st1 with events := fun i => if i = approval_id then some false else st1.events i }

/-- Outcome of store.py `resolve_approval`: the returned Bool, the updated
store, and whether `event.set()` was called (the signal fired). -/
structure ResolveResult where
  ok : Bool
  store : StoreState
  fired : Bool

/-- store.py `resolve_approval` (lines 181-200): UPDATE the row to approved
with `resolved_at = now()` WHERE the id matches AND status is still pending;
if no row was updated return False; otherwise look the in-memory event up and
set it only when it exists (`if event:`), then return True. -/
def resolve_approval (st : StoreState) (now : Nat) (approval_id : String) : ResolveResult :=
  match st.approvals approval_id with
  | none => { ok := false, store := st, fired := false }
  | some row =>
      if row.status = "pending" then
        let st1 :=
          { st with approvals := fun i =>
              if i = approval_id then some { row with status := "approved", resolved_at := some now }
              else st.approvals i }
        match st1.events approval_id with
        | some _ =>
            { ok := true
              store := { st1 with events := fun i => if i = approval_id then some true else st1.events i }
              fired := true }
        | none => { ok := true, store := st1, fired := false }
      else
        { ok := false, store := st, fired := false }

/- ──────────────────────────────────────────────────────────────────────────
   executor.py — Executor.run
   ────────────────────────────────────────────────────────────────────────── -/

/-- The Executor's external world: whether the approval for step `idx`
arrives before the 300 s timeout, the fresh uuid4 for the approval created at
step `idx`, the Browser Agent's response to each HTTP call (string = the
exception message on failure), and the outcome of
`llm_client.generate_reply(goal, results)`. -/
structure ExecEnv where
  approve : Nat → Bool
  approvalId : Nat → String
  http : BrowserCall → Except String JsonVal
  genReply : String → List StepResult → Except String String

/-- Python `str.partition(".")` restricted to what the executor uses: the
part before the first dot and the part after it (both empty-ish when there is
no dot: `("s", "")`), over the character list. -/
def splitFirstDot : List Char → Option (List Char × List Char)
  | [] => none
  | c :: cs =>
      if c = '.' then some ([], cs)
      else
        match splitFirstDot cs with
        | none => none
        | some (a, b) => some (c :: a, b)

/-- executor.py line 109: `service, _, action = step.tool.partition(".")`. -/
def partitionDot (s : String) : String × String :=
  match splitFirstDot s.data with
  | none => (s, "")
  | some (a, b) => (String.mk a, String.mk b)

/-- Message of the ValueError / KeyError raised inside
`browser_client.dispatch`, as seen by the executor's `except` clause. -/
def browserErrorMessage : BrowserError → String
  | BrowserError.unknownAction a => "Acción de browser desconocida: " ++ a
  | BrowserError.keyError k => "KeyError: " ++ k

/-- executor.py `_dispatch` (lines 108-114): split the tool at the first dot;
only the `browser` service is routed (to `browser_client.dispatch`), anything
else raises ValueError. A successful browser dispatch performs the HTTP call
through the environment. -/
def execDispatch (env : ExecEnv) (step : PlanStep) : Except String JsonVal :=
  let sa := partitionDot step.tool
  if sa.fst = "browser" then
    match browserDispatch sa.snd step.args with
    | Except.error e => Except.error (browserErrorMessage e)
    | Except.ok call => env.http call
  else
    Except.error ("Servicio desconocido: " ++ sa.fst ++ ". Solo browser está disponible.")

/-- executor.py `_record_step` (lines 120-138): append one StepResult for
step `idx` and persist the task. -/
def recordStep (task : TaskRecord) (idx : Nat) (step : PlanStep) (status : String)
    (output : JsonVal) (error : Option String) : TaskRecord :=
  { task with results := task.results ++
      [{ step_index := idx, tool := step.tool, args := step.args, status := status,
         output := output, error := error }] }

/-- executor.py lines 56-57: mark the task failed after a step exception. -/
def stepFailed (t : TaskRecord) (idx : Nat) (step : PlanStep) (e : String) : TaskRecord :=
  { t with status := TaskStatus.failed,
           error := some ("Error en paso " ++ toString idx ++ " (" ++ step.tool ++ "): " ++ e) }

/-- executor.py lines 45-46: mark the task failed after an approval timeout.
Note `pending_approval_id` is NOT cleared on this path. -/
def approvalFailed (t : TaskRecord) (idx : Nat) : TaskRecord :=
  { t with status := TaskStatus.failed,
           error := some ("Paso " ++ toString idx ++ " requería aprobación pero no se recibió.") }

/-- The loop body of `Executor.run` (executor.py lines 35-69) over the
remaining steps, with `idx` the index of the first of them. Returns the final
task together with the list of every task state passed to
`store.save_task`, in order (the execution trace).

Per step: set `current_step`, persist; if `needs_ok`, run
`_request_approval` (lines 75-102): create the approval, move to
`paused_for_approval` with `pending_approval_id` set, persist, wait; on
timeout record a skipped result and fail (lines 43-48), on approval move back
to `running` with `pending_approval_id` cleared, persist. Then dispatch; on
success record an ok result and continue, on exception record an error result
and fail. After the loop: status `completed` and a reply from the LLM, with
the canned fallback on reply failure (lines 61-69). -/
def runSteps (env : ExecEnv) (steps : List PlanStep) (idx : Nat) (task : TaskRecord) :
    TaskRecord × List TaskRecord :=
  match steps with
  | [] =>
      let reply :=
        match env.genReply task.goal task.results with
        | Except.ok r => r
        | Except.error _ => "Hecho: " ++ task.goal
      let tdone := { task with status := TaskStatus.completed, reply := some reply }
      (tdone, [tdone])
  | step :: rest =>
      let t0 := { task with current_step := idx }
      if step.needs_ok then
        let aid := env.approvalId idx
        let tp := { t0 with status := TaskStatus.paused_for_approval,
                            pending_approval_id := some aid }
        if env.approve idx then
          let trun := { tp with status := TaskStatus.running, pending_approval_id := none }
          match execDispatch env step with
          | Except.ok out =>
              let tok := recordStep trun idx step ("ok") out none
              let fin := runSteps env rest (idx + 1) tok
              (fin.fst, [t0, tp, trun, tok] ++ fin.snd)
          | Except.error e =>
              let te := recordStep trun idx step ("error") JsonVal.null (some e)
              let tf := stepFailed te idx step e
              (tf, [t0, tp, trun, te, tf])
        else
          let ts := recordStep tp idx step ("skipped") JsonVal.null (some "Aprobación no recibida")
          let tf := approvalFailed ts idx
          (tf, [t0, tp, ts, tf])
      else
        match execDispatch env step with
        | Except.ok out =>
            let tok := recordStep t0 idx step ("ok") out none
            let fin := runSteps env rest (idx + 1) tok
            (fin.fst, [t0, tok] ++ fin.snd)
        | Except.error e =>
            let te := recordStep t0 idx step ("error") JsonVal.null (some e)
            let tf := stepFailed te idx step e
            (tf, [t0, te, tf])

/-- executor.py `Executor.run` (lines 24-69): move to `running`, persist,
then walk the plan steps from index 0. The caller guarantees `task.plan` is
set (the `assert`); with no plan the model stops after the first save. -/
def execRun (env : ExecEnv) (task : TaskRecord) : TaskRecord × List TaskRecord :=
  let t1 := { task with status := TaskStatus.running }
  match t1.plan with
  | none => (t1, [t1])
  | some plan =>
      let fin := runSteps env plan.steps 0 t1
      (fin.fst, t1 :: fin.snd)

/- ──────────────────────────────────────────────────────────────────────────
   routers/chat.py and routers/tasks.py — ingress endpoints
   ────────────────────────────────────────────────────────────────────────── -/

/-- routers/tasks.py `_to_response` (lines 53-63). -/
def to_response (task : TaskRecord) : TaskResponse :=
  { id := task.id
    status := task.status
    goal := task.goal
    current_step := task.current_step
    results := task.results
    pending_approval_id := task.pending_approval_id
    error := task.error
    reply := task.reply }

/-- routers/tasks.py `get_task` (lines 45-50): read the row back from the
store (404 when absent) and project it through `_row_to_task` and
`_to_response`. -/
def get_task_endpoint (st : StoreState) (task_id : String) : Except Nat TaskResponse :=
  match st.tasks task_id with
  | none => Except.error 404
  | some row => Except.ok (to_response (row_to_task row))

/-- routers/chat.py `chat` (lines 22-51) up to the planner outcome, returning
the HTTP status code and the store. `planRes` is the outcome of
`planner.build_plan(request.message)` (string = the exception message).

All three `store.save_task(task)` calls in this handler are missing `await`
(lines 29, 37, 42): each one only creates a coroutine object that is never
run, so none of them writes to the store. The model therefore leaves the
store untouched on both branches; the local task mutations are kept to
mirror the source. -/
def chat_endpoint (planRes : Except String Plan) (now : Nat) (task_id message : String)
    (st : StoreState) : Nat × StoreState :=
  let task : TaskRecord :=
    { id := task_id, goal := message, status := TaskStatus.pending,
      created_at := now, updated_at := now }
  match planRes with
  | Except.error exc =>
      let _failed := { task with status := TaskStatus.failed, error := some exc }
      (502, st)
  | Except.ok plan =>
      let _planned := { task with plan := some plan, goal := plan.goal }
      (200, st)

/-- routers/tasks.py `enqueue_task` (lines 20-42) up to the planner outcome:
here every `store.save_task` IS awaited, so the pending task is persisted,
and on planner failure the task is re-persisted as failed with
`error = str(exc)` before the 502 is raised. -/
def enqueue_endpoint (planRes : Except String Plan) (now : Nat) (task_id message : String)
    (st : StoreState) : Nat × StoreState :=
  let task : TaskRecord :=
    { id := task_id, goal := message, status := TaskStatus.pending,
      created_at := now, updated_at := now }
  let st1 := store_save_task st now task
  match planRes with
  | Except.error exc =>
      let failed := { task with status := TaskStatus.failed, error := some exc }
      (502, store_save_task st1 now failed)
  | Except.ok plan =>
      let planned := { task with plan := some plan, goal := plan.goal }
      (202, store_save_task st1 now planned)

/- ──────────────────────────────────────────────────────────────────────────
   worker/scheduler.py — _health_check_minutes
   ────────────────────────────────────────────────────────────────────────── -/

/-- Python `range(0, stop, step)` for `step ≥ 1`, as a list. -/
def pyRangeStep (stop step : Nat) : List Nat :=
  (List.range ((stop + step - 1) / step)).map (fun i => i * step)

/-- scheduler.py `_health_check_minutes` (lines 34-42): take the configured
`HEALTH_CHECK_EVERY_N_MINUTES` (an arbitrary integer); if it is ≤ 0 or does
not divide 60, replace it by 5; return `set(range(0, 60, n))`. -/
def health_check_minutes (n0 : Int) : Finset Nat :=
  (pyRangeStep 60 (if n0 ≤ 0 ∨ (60 : Int) % n0 ≠ 0 then (5 : Int) else n0).toNat).toFinset

/-- Modelled from the spec's words (§4.7, §8 invariant 6), for comparison with
`health_check_minutes`: the minute set is `{0, N, 2N, …} ∩ [0,60)` when
`N > 0` and `N` divides 60, and the canonical fallback set
`{0, 5, 10, …, 55}` otherwise. -/
def specHealthMinutes (n : Int) : Finset Nat :=
  if 0 < n ∧ (60 : Int) % n = 0 then
    (Finset.range 60).filter (fun k => n.toNat ∣ k)
  else
    ({0, 5, 10, 15, 20, 25, 30, 35, 40, 45, 50, 55} : Finset Nat)

/-- The step-result indexing invariant of the spec (§8 invariant 1): the
i-th recorded result carries step_index i. -/
def resultsIndexed (rs : List StepResult) : Prop :=
  ∀ i (h : i < rs.length), (rs.get ⟨i, h⟩).step_index = i

/-- Environment for the C6 witness run: one successful browser call. -/
def c6Env : ExecEnv :=
  { approve := fun _ => true
    approvalId := fun i => "a" ++ toString i
    http := fun _ => Except.ok JsonVal.null
    genReply := fun _ _ => Except.ok ("listo") }

/-- One-step plan for the C6 witness run. -/
def c6Plan : Plan := { goal := "g6", steps := [{ tool := "browser.close" }] }

/-- The C6 witness task. -/
def c6Task : TaskRecord := { id := "t6", goal := "g6", plan := some c6Plan }

/-- The first task state the C6 run persists (status set to running). -/
def c6RunState : TaskRecord := { c6Task with status := TaskStatus.running }

/-- Environment for the C7 witness run: one successful browser call and a
successful reply. -/
def c7Env : ExecEnv :=
  { approve := fun _ => true
    approvalId := fun i => "a" ++ toString i
    http := fun _ => Except.ok JsonVal.null
    genReply := fun _ _ => Except.ok ("hecho") }

/-- One-step plan for the C7 witness run. -/
def c7Plan : Plan := { goal := "g7", steps := [{ tool := "browser.screenshot" }] }

/-- The C7 witness task. -/
def c7Task : TaskRecord := { id := "t7", goal := "g7", plan := some c7Plan }

/-- A store state holding one unresolved approval row and no in-memory event
(the situation after a process restart, store.py line 50). -/
def c5Store : StoreState :=
  { tasks := fun _ => none
    approvals := fun i =>
      if i = "a1" then
        some { task_id := "t1", step_index := 0, ok_prompt := "ok?", status := "pending",
               created_at := 0, resolved_at := none }
      else none
    events := fun _ => none }

/-- A store with one unresolved approval row and its registered (unset)
event, as left by `save_approval`. -/
def c5wStore : StoreState :=
  { tasks := fun _ => none
    approvals := fun i =>
      if i = "a2" then
        some { task_id := "t2", step_index := 0, ok_prompt := "ok?", status := "pending",
               created_at := 0, resolved_at := none }
      else none
    events := fun i => if i = "a2" then some false else none }

/-- A store with one unresolved approval row and an empty event registry. -/
def c10Store : StoreState :=
  { tasks := fun _ => none
    approvals := fun i =>
      if i = "a3" then
        some { task_id := "t3", step_index := 1, ok_prompt := "ok?", status := "pending",
               created_at := 0, resolved_at := none }
      else none
    events := fun _ => none }

/-- Happy-path scenario for C1 (spec §8 S1): one `browser.open` step, the
browser call succeeds, the LLM reply succeeds. -/
def c1Plan : Plan :=
  { goal := "open google"
    steps := [{ tool := "browser.open", args := [("url", JsonVal.str ("https://google.com"))] }] }

/-- Environment for C1: every call succeeds. -/
def c1Env : ExecEnv :=
  { approve := fun _ => true
    approvalId := fun i => "ap" ++ toString i
    http := fun _ => Except.ok (JsonVal.obj [("status", JsonVal.str ("ok"))])
    genReply := fun _ _ => Except.ok ("He abierto google punto com") }

/-- The task handed to the Executor for C1 (plan already attached). -/
def c1Task : TaskRecord := { id := "t1", goal := "open google", plan := some c1Plan }

/-- The task state the Executor leaves behind for C1. -/
def c1Final : TaskRecord := (execRun c1Env c1Task).fst

/-- The /v1/chat handler on a failing planner ("boom"), over the empty store. -/
def c2Chat : Nat × StoreState :=
  chat_endpoint (Except.error ("boom")) 5 ("t2c") ("open google") emptyStore

/-- The /v1/tasks/enqueue handler on the same failing planner. -/
def c2Enq : Nat × StoreState :=
  enqueue_endpoint (Except.error ("boom")) 5 ("t2e") ("open google") emptyStore

/-- Scenario for C3: a single step that needs approval, and the approval
never arrives (timeout). -/
def c3Env : ExecEnv :=
  { approve := fun _ => false
    approvalId := fun i => "ap" ++ toString i
    http := fun _ => Except.ok JsonVal.null
    genReply := fun _ _ => Except.error ("no llm") }

/-- The C3 task: one `needs_ok` step. -/
def c3Task : TaskRecord :=
  { id := "t3", goal := "cerrar"
    plan := some { goal := "cerrar",
                   steps := [{ tool := "browser.close", needs_ok := true,
                               ok_prompt := some ("Cerrar?") }] } }

/-- The task state the Executor leaves behind for C3. -/
def c3Final : TaskRecord := (execRun c3Env c3Task).fst

/- ──────────────────────────────────────────────────────────────────────────
   Theorems
   ────────────────────────────────────────────────────────────────────────── -/

/-- The model↔DB status mapping is a bijection on the statuses the model can
produce. -/
theorem statusFromDB_statusToDB (s : TaskStatus) : statusFromDB (statusToDB s) = s := by
  cases s <;> rfl

/-- Claim C8: serializing a TaskRecord with `save_task` and deserializing the
stored row with `_row_to_task` yields structurally equal values for id, goal,
status (through the model↔DB status mapping), plan, results, current_step and
pending_approval_id. -/
theorem save_task_roundtrip (task : TaskRecord) (now : Nat) :
    (row_to_task (save_task now task)).id = task.id ∧
    (row_to_task (save_task now task)).goal = task.goal ∧
    (row_to_task (save_task now task)).status = task.status ∧
    (row_to_task (save_task now task)).plan = task.plan ∧
    (row_to_task (save_task now task)).results = task.results ∧
    (row_to_task (save_task now task)).current_step = task.current_step ∧
    (row_to_task (save_task now task)).pending_approval_id = task.pending_approval_id := by
  refine ⟨rfl, rfl, ?_, rfl, rfl, rfl, rfl⟩
  exact statusFromDB_statusToDB task.status

set_option maxRecDepth 100000 in
/-- For every positive divisor of 60, `range(0, 60, m)` enumerates exactly
the multiples of `m` below 60 (checked for every candidate `m ≤ 60`). -/
theorem pyRange_divisors : ∀ m, m < 61 → m ∣ 60 → 0 < m →
    (pyRangeStep 60 m).toFinset = (Finset.range 60).filter (fun k => m ∣ k) := by
  decide

/-- Claim C9: for every configured value N of HEALTH_CHECK_EVERY_N_MINUTES,
the health_check cron minute set equals the multiples of N in [0,60) when
N > 0 and N divides 60, and equals the fallback set of the multiples of 5
when N ≤ 0 or 60 % N ≠ 0. -/
theorem health_check_minutes_spec (n : Int) :
    health_check_minutes n = specHealthMinutes n := by
  by_cases h : 0 < n ∧ (60 : Int) % n = 0
  · obtain ⟨h1, h2⟩ := h
    have hcond : ¬ (n ≤ 0 ∨ (60 : Int) % n ≠ 0) := by
      push_neg
      exact ⟨h1, h2⟩
    have hd : n ∣ 60 := Int.dvd_of_emod_eq_zero h2
    have hn : ((n.toNat : Int)) = n := Int.toNat_of_nonneg h1.le
    have hm : n.toNat ∣ 60 := by
      have hx : (n.toNat : Int) ∣ ((60 : Nat) : Int) := by
        rw [hn]
        exact_mod_cast hd
      exact_mod_cast hx
    have hpos : 0 < n.toNat := by omega
    have hlt : n.toNat < 61 := by
      have := Nat.le_of_dvd (by norm_num) hm
      omega
    unfold health_check_minutes specHealthMinutes
    rw [if_neg hcond, if_pos ⟨h1, h2⟩]
    exact pyRange_divisors n.toNat hlt hm hpos
  · have hcond : n ≤ 0 ∨ (60 : Int) % n ≠ 0 := by
      rcases not_and_or.mp h with h1 | h2
      · left
        omega
      · right
        exact h2
    unfold health_check_minutes specHealthMinutes
    rw [if_pos hcond, if_neg h]
    decide

/-- Claim C4, counterexample: the claim says `dispatch` accepts an action iff
it is one of the seven tool names open, navigate, click, type, extract,
screenshot, close — but the dispatch map also contains `snapshot`, which is
accepted (and routed to GET /v1/browser/snapshot) although it is not among
the seven. -/
theorem dispatch_snapshot_accepted :
    (dispatchHandler ("snapshot")).isSome = true ∧
    ("snapshot" ∉ sevenToolNames) ∧
    browserDispatch ("snapshot") [] = Except.ok (BrowserCall.get ("/v1/browser/snapshot")) := by
  refine ⟨rfl, by decide, rfl⟩

/-- Claim C4 (amended): `dispatch` accepts an action iff it is one of the
EIGHT names in the dispatch map (the seven of the spec plus `snapshot`); for
every other action name it fails with the unknown-action error before any
HTTP request is shaped. -/
theorem dispatch_accepts_iff (action : String) (args : List (String × JsonVal)) :
    ((dispatchHandler action).isSome = true ↔ action ∈ dispatchActionNames) ∧
    ((dispatchHandler action).isSome = false →
      browserDispatch action args = Except.error (BrowserError.unknownAction action)) := by
  constructor
  · unfold dispatchHandler
    split_ifs with h1 h2 h3 h4 h5 h6 h7 h8 <;>
      simp_all [dispatchActionNames]
  · intro hnone
    cases hdm : dispatchHandler action with
    | none => simp [browserDispatch, hdm]
    | some h =>
        rw [hdm] at hnone
        simp at hnone

/-- Witness for C4's amended theorem at the concrete action name "fly". -/
theorem dispatch_accepts_iff_witness :
    (dispatchHandler ("fly")).isSome = false ∧
    browserDispatch ("fly") [] = Except.error (BrowserError.unknownAction ("fly")) :=
  ⟨rfl, (dispatch_accepts_iff ("fly") []).2 rfl⟩

/-- Claim C5, counterexample: on an unresolved approval whose in-process
event is absent, the first `resolve_approval` call returns true but fires NO
signal (store.py line 197 guards `event.set()` with `if event:`), so two
calls produce zero firings, not exactly one. -/
theorem resolve_twice_zero_fires :
    (resolve_approval c5Store 1 ("a1")).ok = true ∧
    (resolve_approval c5Store 1 ("a1")).fired = false ∧
    (resolve_approval (resolve_approval c5Store 1 ("a1")).store 2 ("a1")).ok = false ∧
    (resolve_approval (resolve_approval c5Store 1 ("a1")).store 2 ("a1")).fired = false := by
  refine ⟨rfl, rfl, rfl, rfl⟩

/-- `resolve_approval` on a row that is not pending matches zero rows in the
UPDATE and returns false with no side effect (store.py lines 193-195). -/
theorem resolve_approval_not_pending (st : StoreState) (approval_id : String)
    (row : ApprovalRow) (now : Nat)
    (ha : st.approvals approval_id = some row)
    (hp : ¬ row.status = "pending") :
    resolve_approval st now approval_id = { ok := false, store := st, fired := false } := by
  unfold resolve_approval
  rw [ha]
  simp [hp]

/-- Claim C5 (amended): for every approval id whose row is unresolved AND
whose in-process event is registered (as `save_approval` guarantees for
approvals created in this process), calling `resolve_approval` twice results
in exactly one signal firing: the first call marks the row approved with
`resolved_at`, fires the signal and returns true; the second call returns
false without firing or changing the store. -/
theorem resolve_approval_twice (st : StoreState) (approval_id : String) (row : ApprovalRow)
    (b : Bool) (n1 n2 : Nat)
    (ha : st.approvals approval_id = some row)
    (hp : row.status = "pending")
    (he : st.events approval_id = some b) :
    (resolve_approval st n1 approval_id).ok = true ∧
    (resolve_approval st n1 approval_id).fired = true ∧
    (resolve_approval st n1 approval_id).store.approvals approval_id =
      some { row with status := "approved", resolved_at := some n1 } ∧
    (resolve_approval (resolve_approval st n1 approval_id).store n2 approval_id).ok = false ∧
    (resolve_approval (resolve_approval st n1 approval_id).store n2 approval_id).fired = false ∧
    (resolve_approval (resolve_approval st n1 approval_id).store n2 approval_id).store =
      (resolve_approval st n1 approval_id).store := by
  have h1 : resolve_approval st n1 approval_id =
      { ok := true
        store :=
          { st with
            approvals := fun i =>
              if i = approval_id then some { row with status := "approved", resolved_at := some n1 }
              else st.approvals i
            events := fun i => if i = approval_id then some true else st.events i }
        fired := true } := by
    unfold resolve_approval
    rw [ha]
    simp [hp, he]
  have hup : (resolve_approval st n1 approval_id).store.approvals approval_id =
      some { row with status := "approved", resolved_at := some n1 } := by
    rw [h1]
    simp
  have h2 : resolve_approval (resolve_approval st n1 approval_id).store n2 approval_id =
      { ok := false, store := (resolve_approval st n1 approval_id).store, fired := false } :=
    resolve_approval_not_pending _ approval_id _ n2 hup (show ¬ ("approved" = "pending") by decide)
  refine ⟨by rw [h1], by rw [h1], hup, by rw [h2], by rw [h2], by rw [h2]⟩

/-- Witness for C5's amended theorem on a concrete store. -/
theorem resolve_approval_twice_witness :
    (resolve_approval c5wStore 1 ("a2")).fired = true ∧
    (resolve_approval (resolve_approval c5wStore 1 ("a2")).store 2 ("a2")).fired = false := by
  have h := resolve_approval_twice c5wStore ("a2")
    { task_id := "t2", step_index := 0, ok_prompt := "ok?", status := "pending",
      created_at := 0, resolved_at := none }
    false 1 2 rfl rfl rfl
  exact ⟨h.2.1, h.2.2.2.2.1⟩

/-- Claim C10: for an approval whose stored row is unresolved but with no
in-process event registered (e.g. after a restart), `resolve_approval` still
marks the row approved with `resolved_at` and returns true; the absent
signal is silently skipped (nothing fires and the event registry is left
without an entry), and the model — like the code path — raises nothing. -/
theorem resolve_approval_no_event (st : StoreState) (approval_id : String) (row : ApprovalRow)
    (now : Nat)
    (ha : st.approvals approval_id = some row)
    (hp : row.status = "pending")
    (he : st.events approval_id = none) :
    (resolve_approval st now approval_id).ok = true ∧
    (resolve_approval st now approval_id).fired = false ∧
    (resolve_approval st now approval_id).store.approvals approval_id =
      some { row with status := "approved", resolved_at := some now } ∧
    (resolve_approval st now approval_id).store.events approval_id = none := by
  have h1 : resolve_approval st now approval_id =
      { ok := true
        store :=
          { st with
            approvals := fun i =>
              if i = approval_id then some { row with status := "approved", resolved_at := some now }
              else st.approvals i }
        fired := false } := by
    unfold resolve_approval
    rw [ha]
    simp [hp, he]
  refine ⟨by rw [h1], by rw [h1], by rw [h1]; simp, by rw [h1]; simpa using he⟩

/-- Witness for C10's theorem on a concrete store. -/
theorem resolve_approval_no_event_witness :
    (resolve_approval c10Store 4 ("a3")).ok = true ∧
    (resolve_approval c10Store 4 ("a3")).fired = false := by
  have h := resolve_approval_no_event c10Store ("a3")
    { task_id := "t3", step_index := 1, ok_prompt := "ok?", status := "pending",
      created_at := 0, resolved_at := none }
    4 rfl rfl rfl
  exact ⟨h.1, h.2.1⟩

/-- Claim C1, code bug: the Executor does set status `completed` and a
non-null reply, but `save_task` (store.py lines 70-75) never serializes
`reply` and `_row_to_task` (lines 125-136) never restores it, so the
subsequent GET /v1/tasks/t1 — which reads the task back from the store —
returns the completed task with `reply = null`, not the non-empty reply the
spec promises. -/
theorem completed_reply_lost :
    c1Final.status = TaskStatus.completed ∧
    c1Final.reply = some ("He abierto google punto com") ∧
    get_task_endpoint (store_save_task emptyStore 9 c1Final) ("t1") =
      Except.ok
        { id := "t1", status := TaskStatus.completed, goal := "open google",
          current_step := 0,
          results := [{ step_index := 0, tool := "browser.open",
                        args := [("url", JsonVal.str ("https://google.com"))],
                        status := "ok",
                        output := JsonVal.obj [("status", JsonVal.str ("ok"))],
                        error := none }],
          pending_approval_id := none, error := none, reply := none } := by
  refine ⟨rfl, rfl, rfl⟩

/-- Claim C2, code bug: both endpoints do answer HTTP 502 on planner failure,
and /v1/tasks/enqueue persists the task as failed with the non-empty
exception message as error — but /v1/chat calls `store.save_task(task)`
without `await` (chat.py lines 29 and 37), so the coroutines are never run
and NO task row is ever written: the failed task is not persisted there. -/
theorem chat_planner_failure_not_persisted :
    c2Chat.fst = 502 ∧
    c2Chat.snd.tasks ("t2c") = none ∧
    c2Enq.fst = 502 ∧
    (c2Enq.snd.tasks ("t2e")).map (fun r => (r.status, r.error)) =
      some ("failed", some ("boom")) := by
  refine ⟨rfl, rfl, rfl, rfl⟩

/-- Claim C3, code bug: on approval timeout `_request_approval` returns False
without clearing `pending_approval_id` (executor.py lines 94-97), and the
failure path in `run` (lines 43-48) never clears it either, so the task ends
`failed` with `pending_approval_id` still set to the approval id — violating
the invariant (spec §8.4 and the field comment in models.py line 64) that
`pending_approval_id` is nil in every status other than
`paused_for_approval`. -/
theorem failed_task_keeps_pending_approval :
    c3Final.status = TaskStatus.failed ∧
    c3Final.pending_approval_id = some ("ap0") ∧
    c3Final.results.map (fun r => r.status) = [("skipped")] := by
  refine ⟨rfl, rfl, rfl⟩

/-- The empty result list is trivially well indexed. -/
theorem resultsIndexed_nil : resultsIndexed [] := by
  intro i h
  simp at h

/-- Appending a result carrying the next index preserves the indexing
invariant. -/
theorem resultsIndexed_append {rs : List StepResult} {r : StepResult}
    (h1 : resultsIndexed rs) (h2 : r.step_index = rs.length) :
    resultsIndexed (rs ++ [r]) := by
  intro i hi
  simp only [List.get_eq_getElem]
  rcases Nat.lt_or_ge i rs.length with hlt | hge
  · rw [List.getElem_append_left hlt]
    have h := h1 i hlt
    simpa using h
  · have hi2 : i < rs.length + 1 := by simpa using hi
    have heq : i = rs.length := by omega
    subst heq
    rw [List.getElem_append_right (Nat.le_refl _)]
    simpa using h2

/-- Core invariant of `Executor.run` (spec §8 invariant 1), by induction over
the remaining steps: every task state the loop persists keeps the plan,
keeps `len(results) ≤ len(plan.steps)`, and keeps the results indexed
0,1,2,…. -/
theorem runSteps_invariant (env : ExecEnv) (p : Plan) :
    ∀ (steps : List PlanStep) (idx : Nat) (task : TaskRecord),
      task.plan = some p →
      task.results.length = idx →
      idx + steps.length = p.steps.length →
      resultsIndexed task.results →
      ∀ t ∈ (runSteps env steps idx task).snd,
        t.plan = some p ∧ t.results.length ≤ p.steps.length ∧ resultsIndexed t.results := by
  intro steps
  induction steps with
  | nil =>
      intro idx task hplan hlen htot hinv t ht
      simp only [runSteps, List.mem_singleton] at ht
      subst ht
      refine ⟨hplan, ?_, hinv⟩
      show task.results.length ≤ p.steps.length
      simp only [List.length_nil] at htot
      omega
  | cons step rest ih =>
      intro idx task hplan hlen htot hinv t ht
      have hlt : idx < p.steps.length := by
        simp only [List.length_cons] at htot
        omega
      have htot2 : (idx + 1) + rest.length = p.steps.length := by
        simp only [List.length_cons] at htot
        omega
      simp only [runSteps] at ht
      cases hno : step.needs_ok with
      | false =>
          cases hd : execDispatch env step with
          | ok out =>
              simp only [hno, hd, Bool.false_eq_true, if_false, List.cons_append,
                List.nil_append, List.mem_cons, List.mem_append] at ht
              rcases ht with rfl | rfl | hmem
              · refine ⟨hplan, ?_, hinv⟩
                show task.results.length ≤ p.steps.length
                omega
              refine ⟨hplan, ?_, ?_⟩
              · simp only [recordStep, List.length_append, List.length_cons, List.length_nil]
                omega
              · exact resultsIndexed_append hinv hlen.symm
              · refine ih (idx + 1) _ ?_ ?_ htot2 ?_ t hmem
                · exact hplan
                · simp [recordStep, hlen]
                · exact resultsIndexed_append hinv hlen.symm
          | error e =>
              simp only [hno, hd, Bool.false_eq_true, if_false, List.mem_cons,
                List.not_mem_nil, or_false] at ht
              rcases ht with rfl | rfl | rfl
              · refine ⟨hplan, ?_, hinv⟩
                show task.results.length ≤ p.steps.length
                omega
              refine ⟨hplan, ?_, ?_⟩
              · simp only [recordStep, List.length_append, List.length_cons, List.length_nil]
                omega
              · exact resultsIndexed_append hinv hlen.symm
              refine ⟨hplan, ?_, ?_⟩
              · simp only [stepFailed, recordStep, List.length_append, List.length_cons,
                List.length_nil]
                omega
              · exact resultsIndexed_append hinv hlen.symm
      | true =>
          cases happr : env.approve idx with
          | true =>
              cases hd : execDispatch env step with
              | ok out =>
                  simp only [hno, happr, hd, if_true, List.cons_append, List.nil_append,
                    List.mem_cons, List.mem_append] at ht
                  rcases ht with rfl | rfl | rfl | rfl | hmem
                  · refine ⟨hplan, ?_, hinv⟩
                    show task.results.length ≤ p.steps.length
                    omega
                  · refine ⟨hplan, ?_, hinv⟩
                    show task.results.length ≤ p.steps.length
                    omega
                  · refine ⟨hplan, ?_, hinv⟩
                    show task.results.length ≤ p.steps.length
                    omega
                  refine ⟨hplan, ?_, ?_⟩
                  · simp only [recordStep, List.length_append, List.length_cons, List.length_nil]
                    omega
                  · exact resultsIndexed_append hinv hlen.symm
                  · refine ih (idx + 1) _ ?_ ?_ htot2 ?_ t hmem
                    · exact hplan
                    · simp [recordStep, hlen]
                    · exact resultsIndexed_append hinv hlen.symm
              | error e =>
                  simp only [hno, happr, hd, if_true, List.mem_cons, List.not_mem_nil,
                    or_false] at ht
                  rcases ht with rfl | rfl | rfl | rfl | rfl
                  · refine ⟨hplan, ?_, hinv⟩
                    show task.results.length ≤ p.steps.length
                    omega
                  · refine ⟨hplan, ?_, hinv⟩
                    show task.results.length ≤ p.steps.length
                    omega
                  · refine ⟨hplan, ?_, hinv⟩
                    show task.results.length ≤ p.steps.length
                    omega
                  refine ⟨hplan, ?_, ?_⟩
                  · simp only [recordStep, List.length_append, List.length_cons, List.length_nil]
                    omega
                  · exact resultsIndexed_append hinv hlen.symm
                  refine ⟨hplan, ?_, ?_⟩
                  · simp only [stepFailed, recordStep, List.length_append, List.length_cons,
                    List.length_nil]
                    omega
                  · exact resultsIndexed_append hinv hlen.symm
          | false =>
              simp only [hno, happr, if_true, Bool.false_eq_true, if_false, List.mem_cons,
                List.not_mem_nil, or_false] at ht
              rcases ht with rfl | rfl | rfl | rfl
              · refine ⟨hplan, ?_, hinv⟩
                show task.results.length ≤ p.steps.length
                omega
              · refine ⟨hplan, ?_, hinv⟩
                show task.results.length ≤ p.steps.length
                omega
              refine ⟨hplan, ?_, ?_⟩
              · simp only [recordStep, List.length_append, List.length_cons, List.length_nil]
                omega
              · exact resultsIndexed_append hinv hlen.symm
              refine ⟨hplan, ?_, ?_⟩
              · simp only [approvalFailed, recordStep, List.length_append, List.length_cons,
                List.length_nil]
                omega
              · exact resultsIndexed_append hinv hlen.symm

/-- Claim C6: for every task the Executor drives (plan attached, fresh
result list), at every point of execution — i.e. in every task state passed
to `store.save_task` — `len(results) ≤ len(plan.steps)` and
`results[i].step_index == i` for all i; each attempted step appends exactly
one StepResult (visible in the model: every branch of `runSteps` appends at
most one result per step, with the step's index). -/
theorem executor_results_indexed (env : ExecEnv) (task : TaskRecord) (p : Plan)
    (hplan : task.plan = some p) (hres : task.results = []) :
    ∀ t ∈ (execRun env task).snd,
      t.results.length ≤ p.steps.length ∧
      ∀ i (h : i < t.results.length), (t.results.get ⟨i, h⟩).step_index = i := by
  have hplan2 : ({ task with status := TaskStatus.running } : TaskRecord).plan = some p := hplan
  have hrun : execRun env task =
      ((runSteps env p.steps 0 { task with status := TaskStatus.running }).fst,
        { task with status := TaskStatus.running } ::
          (runSteps env p.steps 0 { task with status := TaskStatus.running }).snd) := by
    unfold execRun
    rw [hplan2]
  intro t ht
  rw [hrun] at ht
  rcases List.mem_cons.mp ht with rfl | hmem
  · constructor
    · show task.results.length ≤ p.steps.length
      simp [hres]
    · show resultsIndexed task.results
      rw [hres]
      exact resultsIndexed_nil
  · have h := runSteps_invariant env p p.steps 0 { task with status := TaskStatus.running }
      hplan2
      (show task.results.length = 0 by simp [hres])
      (by simp)
      (show resultsIndexed task.results by rw [hres]; exact resultsIndexed_nil)
      t hmem
    exact ⟨h.2.1, h.2.2⟩

/-- Witness for C6 on a concrete one-step run, at the first persisted state. -/
theorem executor_results_indexed_witness :
    c6RunState.results.length ≤ c6Plan.steps.length :=
  (executor_results_indexed c6Env c6Task c6Plan rfl rfl c6RunState (List.Mem.head _)).1

/-- An all-ok result list stays all-ok after appending an ok result. -/
theorem forall_mem_append_singleton {α : Type} {P : α → Prop} {xs : List α} {x : α}
    (h1 : ∀ r ∈ xs, P r) (h2 : P x) : ∀ r ∈ xs ++ [x], P r := by
  intro r hr
  rcases List.mem_append.mp hr with h | h
  · exact h1 r h
  · rw [List.mem_singleton.mp h]
    exact h2

/-- Core of C7, by induction over the remaining steps: if the loop ends with
status `completed`, it appended one `"ok"` result per remaining step and
every result (old and new) is `"ok"`. -/
theorem runSteps_completed (env : ExecEnv) :
    ∀ (steps : List PlanStep) (idx : Nat) (task : TaskRecord),
      (∀ r ∈ task.results, r.status = "ok") →
      (runSteps env steps idx task).fst.status = TaskStatus.completed →
      (runSteps env steps idx task).fst.results.length = task.results.length + steps.length ∧
      ∀ r ∈ (runSteps env steps idx task).fst.results, r.status = "ok" := by
  intro steps
  induction steps with
  | nil =>
      intro idx task hok _
      constructor
      · simp [runSteps]
      · intro r hr
        have hr2 : r ∈ task.results := by simpa [runSteps] using hr
        exact hok r hr2
  | cons step rest ih =>
      intro idx task hok hcomp
      cases hno : step.needs_ok with
      | false =>
          cases hd : execDispatch env step with
          | ok out =>
              have hfst : (runSteps env (step :: rest) idx task).fst =
                  (runSteps env rest (idx + 1)
                    (recordStep { task with current_step := idx } idx step ("ok") out none)).fst := by
                simp [runSteps, hno, hd]
              rw [hfst] at hcomp ⊢
              have h := ih (idx + 1) _ (forall_mem_append_singleton hok rfl) hcomp
              refine ⟨?_, h.2⟩
              rw [h.1]
              simp only [recordStep, List.length_append, List.length_cons, List.length_nil]
              omega
          | error e =>
              have hfail : (runSteps env (step :: rest) idx task).fst.status = TaskStatus.failed := by
                simp [runSteps, hno, hd, stepFailed]
              exact absurd (hfail.symm.trans hcomp) (by decide)
      | true =>
          cases happr : env.approve idx with
          | true =>
              cases hd : execDispatch env step with
              | ok out =>
                  have hfst : (runSteps env (step :: rest) idx task).fst =
                      (runSteps env rest (idx + 1)
                        (recordStep
                          { task with current_step := idx,
                                      status := TaskStatus.running, pending_approval_id := none }
                          idx step ("ok") out none)).fst := by
                    simp [runSteps, hno, happr, hd]
                  rw [hfst] at hcomp ⊢
                  have h := ih (idx + 1) _ (forall_mem_append_singleton hok rfl) hcomp
                  refine ⟨?_, h.2⟩
                  rw [h.1]
                  simp only [recordStep, List.length_append, List.length_cons, List.length_nil]
                  omega
              | error e =>
                  have hfail : (runSteps env (step :: rest) idx task).fst.status = TaskStatus.failed := by
                    simp [runSteps, hno, happr, hd, stepFailed]
                  exact absurd (hfail.symm.trans hcomp) (by decide)
          | false =>
              have hfail : (runSteps env (step :: rest) idx task).fst.status = TaskStatus.failed := by
                simp [runSteps, hno, happr, approvalFailed]
              exact absurd (hfail.symm.trans hcomp) (by decide)

/-- Claim C7: if the Executor leaves a task (driven from a fresh result list
with its plan attached) in status `completed`, then `len(results) ==
len(plan.steps)` and every result has status ok — including steps that
required and received approval, which take the `paused_for_approval`
detour before their `"ok"` result is recorded. -/
theorem executor_completed_all_ok (env : ExecEnv) (task : TaskRecord) (p : Plan)
    (hplan : task.plan = some p) (hres : task.results = [])
    (hcomp : (execRun env task).fst.status = TaskStatus.completed) :
    (execRun env task).fst.results.length = p.steps.length ∧
    ∀ r ∈ (execRun env task).fst.results, r.status = "ok" := by
  have hplan2 : ({ task with status := TaskStatus.running } : TaskRecord).plan = some p := hplan
  have hrun : execRun env task =
      ((runSteps env p.steps 0 { task with status := TaskStatus.running }).fst,
        { task with status := TaskStatus.running } ::
          (runSteps env p.steps 0 { task with status := TaskStatus.running }).snd) := by
    unfold execRun
    rw [hplan2]
  rw [hrun] at hcomp ⊢
  have hok0 : ∀ r ∈ ({ task with status := TaskStatus.running } : TaskRecord).results,
      r.status = "ok" := by
    intro r hr
    rw [show ({ task with status := TaskStatus.running } : TaskRecord).results = task.results
      from rfl, hres] at hr
    cases hr
  have h := runSteps_completed env p.steps 0 { task with status := TaskStatus.running } hok0 hcomp
  refine ⟨?_, h.2⟩
  rw [h.1]
  show task.results.length + p.steps.length = p.steps.length
  rw [hres]
  simp

/-- Witness for C7 on a concrete one-step run that completes. -/
theorem executor_completed_all_ok_witness :
    (execRun c7Env c7Task).fst.results.length = c7Plan.steps.length :=
  (executor_completed_all_ok c7Env c7Task c7Plan rfl rfl rfl).1

end Rachael
